import Mathlib

/-!
A shallow embedding of `annotator.py` from python-chess-annotator.

The program reads one chess game, walks it from the last move to the
first, asks a search engine to judge every played move, and mutates the
game tree with comments, engine variations and quality glyphs (NAGs).
The embedding translates the program's own functions (`eval_numeric`,
`eval_human`, `eval_absolute`, `needs_annotation`, `judge_move`,
`get_nags`, `add_annotation`, and the driver loop of `main`) and models
the two external collaborators the source drives: the engine session (a
deterministic oracle from a position and a search depth to a search
result) and the python-chess game-tree primitives
(`add_main_variation`, `variation`, `demote`), following the design
spec's description of those collaborators (spec sections 3 and 4.4).

Machine integers do not occur: Python integers are unbounded, so `Int`
is exact.  A Python function that can raise (`eval_numeric` on a
response with neither score kind raises `UnboundLocalError`) is
embedded as an `Option`-returning function, `none` marking the raised
exception, which propagates through the callers exactly as the
exception would.
-/

namespace Annotator

/-- A chess move, an atom with structural equality (python-chess `Move`:
same origin, destination and promotion compare equal). -/
abbrev Move := Nat

/-- The score slot `info_handler.info["score"][1]` of an engine
response: a depth-to-mate count, or a centipawn value, or (malformed
response) neither. -/
structure Score where
  mate : Option Int
  cp : Option Int
deriving DecidableEq

/-- A board as `judge_move` uses it: the side to move (`turn`, `true`
for White as in python-chess) and the move stack.  `push` and `pop` are
the only mutations the source performs on it. -/
structure Board where
  turn : Bool
  stack : List Move
deriving DecidableEq

/-- python-chess `Board.push`: play a move, flipping the side to move. -/
def Board.push (b : Board) (m : Move) : Board :=
  { turn := !b.turn, stack := b.stack ++ [m] }

/-- python-chess `Board.pop`: unplay the last move. -/
def Board.pop (b : Board) : Board :=
  { turn := !b.turn, stack := b.stack.dropLast }

/-- `eval_numeric` (annotator.py lines 36-59).  `none` embeds the
`UnboundLocalError` raised at `return result` when the engine reported
neither a mate count nor a centipawn value. -/
def eval_numeric (s : Score) : Option Int :=
  match s.mate with
  | some dtm =>
    if dtm ≥ 1 then some (10000 - dtm) else some (-(10000 - dtm))
  | none =>
    match s.cp with
    | some cp => some cp
    | none => none

/-- Two decimal digits with a leading zero when needed: the fractional
part of a `'{:.2f}'` rendering, or of Python float `repr` for a
two-decimal value below 0.1. -/
def pad2 (r : Nat) : String :=
  if r < 10 then "0" ++ toString r else toString r

/-- Models `'{:.2f}'.format(n / 100)` for an integer centipawn count
`n`: the exact two-decimal rendering of `n / 100`.  (For every
realistically sized `n` the Python float produced by `n / 100` is
within rounding distance of the exact value, so the `.2f` format
recovers exactly this string.) -/
def format_two_dec (n : Int) : String :=
  (if n < 0 then "-" else "") ++ toString (n.natAbs / 100) ++ "." ++ pad2 (n.natAbs % 100)

/-- Models `str(n / 100)` (Python 3 true division) for an integer
centipawn count `n`: the shortest decimal rendering with at least one
fractional digit, which is what float `repr` produces for an exactly
two-decimal value of realistic size. -/
def format_div100 (n : Int) : String :=
  let a := n.natAbs
  let r := a % 100
  let frac := if r = 0 then "0" else if r % 10 = 0 then toString (r / 10) else pad2 r
  (if n < 0 then "-" else "") ++ toString (a / 100) ++ "." ++ frac

/-- A Python value as returned by `eval_human`: the mate branch of the
source builds a pair (the comma on line 69 makes a tuple, not a
string), the centipawn branch a string, and falling off the end of the
function returns `None`. -/
inductive PyValue where
  | strVal (s : String)
  | tupleVal (first : String) (second : Int)
  | noneVal
deriving DecidableEq

/-- `eval_human` (annotator.py lines 62-72), as written: the mate
branch is `return "Mate in ", mate`, a tuple. -/
def eval_human (s : Score) : PyValue :=
  match s.mate with
  | some m => PyValue.tupleVal "Mate in " m
  | none =>
    match s.cp with
    | some cp => PyValue.strVal (format_div100 cp)
    | none => PyValue.noneVal

/-- `eval_absolute` (annotator.py lines 75-85).  The source receives a
pawn-unit float; every call site passes `cp / 100` or `cp / -100`, so
we carry the exact value scaled by 100: `number` here is in
centipawns. -/
def eval_absolute (number : Int) (white_to_move : Bool) : String :=
  let number := if !white_to_move then -number else number
  format_two_dec number

/-- The judgment dictionary built by `judge_move` (annotator.py lines
105-111). -/
structure Judgment where
  bestmove : Move
  besteval : Int
  bestcomment : String
  pv : List Move
  playedeval : Int
  playedcomment : String
deriving DecidableEq

/-- `needs_annotation` (annotator.py lines 88-95). -/
def needs_annotation (j : Judgment) : Bool :=
  j.playedeval - j.besteval < -50

/-- Modelled from the spec: one engine response, as read back through
`engine.bestmove` and `info_handler` after `engine.go` — best move,
score (mate xor centipawns) and principal variation (spec section 6,
"Engine protocol"). -/
structure SearchResult where
  bestmove : Move
  score : Score
  pv : List Move
deriving DecidableEq

/-- Modelled from the spec: the engine session (`engine.position`
followed by `engine.go(depth=...)`) as a deterministic oracle from the
submitted position and depth to a response (spec section 2: the engine
is a black box reached through a request/response protocol). -/
abbrev EngineOracle := Board → Nat → SearchResult

/-- What one call of `judge_move` produces in the embedding: the
judgment dictionary, the board object as it stands on return, and the
number of engine searches performed during the call. -/
structure JudgeResult where
  judgment : Judgment
  board : Board
  searches : Nat
deriving DecidableEq

/-- The best-move comment of `judge_move` (annotator.py lines
124-130): mate text, or `eval_absolute(cp / 100, board.turn)`.  `none`
when the score carries neither kind (in the source the dictionary key
would stay unset; unreachable after `eval_numeric` succeeded). -/
def best_move_comment (s : Score) (turn : Bool) : Option String :=
  match s.mate with
  | some m => some ("Mate in " ++ toString m.natAbs)
  | none =>
    match s.cp with
    | some cp => some (eval_absolute cp turn)
    | none => none

/-- The played-move comment of `judge_move` (annotator.py lines
146-152): mate text, or `eval_absolute(cp / -100, board.turn)` — note
the negated centipawn value. -/
def played_move_comment (s : Score) (turn : Bool) : Option String :=
  match s.mate with
  | some m => some ("Mate in " ++ toString m.natAbs)
  | none =>
    match s.cp with
    | some cp => some (eval_absolute (-cp) turn)
    | none => none

/-- `judge_move` (annotator.py lines 98-154).  The engine session is
the oracle; `none` embeds a raised `UnboundLocalError` from
`eval_numeric` propagating out of the call.  The `searches` field
counts `engine.go` invocations. -/
def judge_move (board : Board) (played_move : Move) (oracle : EngineOracle)
    (searchdepth : Nat) : Option JudgeResult :=
  let r := oracle board searchdepth
  match eval_numeric r.score with
  | none => none
  | some besteval =>
    match best_move_comment r.score board.turn with
    | none => none
    | some bestcomment =>
      if played_move = r.bestmove then
        match played_move_comment r.score board.turn with
        | none => none
        | some playedcomment =>
          some { judgment := { bestmove := r.bestmove, besteval := besteval,
                               bestcomment := bestcomment, pv := r.pv,
                               playedeval := besteval, playedcomment := playedcomment },
                 board := board, searches := 1 }
      else
        let board2 := board.push played_move
        let r2 := oracle board2 searchdepth
        match eval_numeric r2.score with
        | none => none
        | some pe =>
          let board3 := board2.pop
          match played_move_comment r2.score board3.turn with
          | none => none
          | some playedcomment =>
            some { judgment := { bestmove := r.bestmove, besteval := besteval,
                                 bestcomment := bestcomment, pv := r.pv,
                                 playedeval := -pe, playedcomment := playedcomment },
                   board := board3, searches := 2 }

/-- python-chess `chess.pgn.NAG_MISTAKE`. -/
def NAG_MISTAKE : Nat := 2

/-- python-chess `chess.pgn.NAG_BLUNDER`. -/
def NAG_BLUNDER : Nat := 4

/-- python-chess `chess.pgn.NAG_DUBIOUS_MOVE`. -/
def NAG_DUBIOUS_MOVE : Nat := 6

/-- `get_nags` (annotator.py lines 157-182). -/
def get_nags (j : Judgment) : List Nat :=
  let delta := j.playedeval - j.besteval
  let nags :=
    if delta < -300 then [NAG_BLUNDER]
    else if delta < -150 then [NAG_MISTAKE]
    else if delta < -75 then [NAG_DUBIOUS_MOVE]
    else []
  let nags := if j.playedeval > 800 then [] else nags
  if j.besteval < -800 then [] else nags

/-- Modelled from the spec: a python-chess `GameNode` below the root —
its move, comment, NAG set and ordered list of child variations, the
first child being the main line (spec section 3, "GameNode"). -/
inductive ChildTree where
  | mk (move : Move) (comment : String) (nags : List Nat) (children : List ChildTree)

/-- The move that produced this node from its parent. -/
def ChildTree.move : ChildTree → Move
  | .mk m _ _ _ => m

/-- Assignment to `node.comment`. -/
def ChildTree.setComment : ChildTree → String → ChildTree
  | .mk m _ n c, s => .mk m s n c

/-- Assignment to `node.nags`. -/
def ChildTree.setNags : ChildTree → List Nat → ChildTree
  | .mk m s _ c, n => .mk m s n c

/-- Modelled from the spec: python-chess `GameNode.demote(move)` — find
the first child whose move matches and move it one position later in
the variation list, so the next child becomes (locally) senior; it
reassigns seniority without deleting any child (spec section 3 and the
glossary entry for "Demote"). -/
def demote (m : Move) : List ChildTree → List ChildTree
  | [] => []
  | c :: rest =>
    if c.move = m then
      match rest with
      | [] => [c]
      | d :: rest2 => d :: c :: rest2
    else c :: demote m rest

/-- The moves actually inserted by the PV loop of `add_annotation`
(annotator.py lines 221-224) when the current branch tip carries `tip`:
a PV move equal to the tip is skipped, otherwise it is appended and
becomes the new tip. -/
def build_pv_chain : Move → List Move → List Move
  | _, [] => []
  | tip, m :: rest =>
    if tip = m then build_pv_chain tip rest
    else m :: build_pv_chain m rest

/-- The side branch built by `add_annotation`: the best move followed
by the chain of inserted PV moves, each a fresh main-line descendant of
the previous (python-chess `add_main_variation` on a fresh node), the
final node carrying the best-move comment (line 227). -/
def mk_variation_chain : Move → List Move → String → ChildTree
  | m, [], c => .mk m c [] []
  | m, m2 :: rest, c => .mk m "" [] [mk_variation_chain m2 rest c]

/-- `add_annotation` (annotator.py lines 205-234), acting on the played
node and its siblings: the parent's variation list is `node :: rest`
(in the driver the played node is always the parent's main child).  The
two field assignments on `node` (comment, line 213, and nags, line 234)
touch state disjoint from the sibling-list operations, so they are
applied up front; `add_main_variation` at the parent attaches the best
move as the new main (first) child, the PV walk grows that branch, and
`demote` then restores the played node to seniority. -/
def add_annotation (node : ChildTree) (rest : List ChildTree) (j : Judgment)
    (searchdepth : Nat) : List ChildTree :=
  let node1 := if j.bestmove ≠ node.move then node.setComment j.playedcomment else node
  let node2 := node1.setNags (get_nags j)
  let max_var_length := searchdepth / 2
  let branch := mk_variation_chain j.bestmove
    (build_pv_chain j.bestmove (j.pv.take max_var_length)) j.bestcomment
  demote j.bestmove (branch :: node2 :: rest)

/-- What the driver decides to do at one node of the walk. -/
inductive NodeAction where
  | endComment
  | annotate
  | noAnnotate
deriving DecidableEq

/-- The backward interior loop of `main` (annotator.py lines 270-295):
for each node, from the last interior node to the first, judge the
played move, and invoke `add_annotation` exactly when
`needs_annotation` holds of the judgment.  The input list carries the
nodes already reversed (last played move first), each as the parent's
board paired with the played move; `none` embeds an exception from
`judge_move` aborting the run. -/
def walk_interior (oracle : EngineOracle) (depth : Nat) :
    List (Board × Move) → Option (List NodeAction)
  | [] => some []
  | (b, m) :: rest =>
    match judge_move b m oracle depth with
    | none => none
    | some r =>
      match walk_interior oracle depth rest with
      | none => none
      | some acts =>
        some ((if needs_annotation r.judgment then NodeAction.annotate
               else NodeAction.noAnnotate) :: acts)

/-- The driver of `main` (annotator.py lines 257-295) restricted to its
annotation decisions, one `NodeAction` per non-root node, last node
first.  `plies` lists the game's nodes from first to last, each as the
parent's board paired with the played move; `game_over` abstracts
`node.board().is_game_over()` at the final position.  When the final
position is not game over, the final node is judged and then
`add_annotation` is invoked unconditionally (line 265) — the result is
recorded as `NodeAction.annotate` with no `needs_annotation` test;
interior nodes go through `walk_interior`. -/
def main_walk (game_over : Bool) (plies : List (Board × Move))
    (oracle : EngineOracle) (depth : Nat) : Option (List NodeAction) :=
  match plies.reverse with
  | [] => some []
  | (b, m) :: rest =>
    if game_over then
      match walk_interior oracle depth rest with
      | none => none
      | some acts => some (NodeAction.endComment :: acts)
    else
      match judge_move b m oracle depth with
      | none => none
      | some _ =>
        match walk_interior oracle depth rest with
        | none => none
        | some acts => some (NodeAction.annotate :: acts)

/-- A fixed engine oracle used by the concrete witnesses: best move 0,
centipawn score 0, empty principal variation, for every position. -/
def sampleOracle : EngineOracle :=
  fun _ _ => { bestmove := 0, score := { mate := none, cp := some 0 }, pv := [] }

/-- The starting board of the witnesses: White to move, empty stack. -/
def sampleBoard : Board :=
  { turn := true, stack := [] }

/-- The result `judge_move sampleBoard 0 sampleOracle 12` computes. -/
def sampleResult : JudgeResult :=
  { judgment := { bestmove := 0, besteval := 0, bestcomment := "0.00", pv := [],
                  playedeval := 0, playedcomment := "0.00" },
    board := sampleBoard, searches := 1 }

/-- An engine oracle reporting best move 0 with a centipawn score of 7
and an empty principal variation, for every position. -/
def sampleOracle7 : EngineOracle :=
  fun _ _ => { bestmove := 0, score := { mate := none, cp := some 7 }, pv := [] }

/-- The result `judge_move sampleBoard 0 sampleOracle7 12` computes:
one search, playedeval equals besteval, and the played comment carries
the sign-negated centipawn value. -/
def sampleResult7 : JudgeResult :=
  { judgment := { bestmove := 0, besteval := 7, bestcomment := "0.07", pv := [],
                  playedeval := 7, playedcomment := "-0.07" },
    board := sampleBoard, searches := 1 }

/-- A judgment sitting exactly on the Blunder side of the -300
boundary: delta = -301, no override applicable. -/
def boundaryJudgment : Judgment :=
  { bestmove := 0, besteval := 301, bestcomment := "", pv := [],
    playedeval := 0, playedcomment := "" }

/-- A judgment with delta = -500 but playedeval = 900: the played side
keeps an overwhelming advantage, triggering the first override. -/
def overrideJudgment : Judgment :=
  { bestmove := 0, besteval := 1400, bestcomment := "", pv := [],
    playedeval := 900, playedcomment := "" }

/-! Theorems. -/

/-- C1 counterexample: at a forced mate in -3 plies (side to move gets
mated), `eval_numeric` returns -10003, not the claimed
sign(m) * (10000 - |m|) = -9997. -/
theorem eval_numeric_negative_mate_counterexample :
    eval_numeric { mate := some (-3), cp := none } = some (-10003) ∧
    Int.sign (-3) * (10000 - |(-3 : Int)|) = -9997 ∧
    eval_numeric { mate := some (-3), cp := none } ≠
      some (Int.sign (-3) * (10000 - |(-3 : Int)|)) := by
  refine ⟨rfl, by decide, ?_⟩
  intro h
  simp [eval_numeric] at h
  omega

/-- C1 (amended): `eval_numeric` maps mate in m plies to 10000 - m when
m ≥ 1 and to -(10000 - m) when m ≤ 0 (so a negative mate lands at
-(10000 + |m|), magnitude strictly above 10000); a centipawn score cp
is returned unchanged; every mate value's magnitude strictly exceeds
every realistic centipawn value's; and among mates of the same sign the
shorter mate lies strictly closer to the dominant bound (10000 for
positive mates, -10000 for negative ones). -/
theorem eval_numeric_spec (m m2 cp : Int) (hcp1 : -9000 ≤ cp) (hcp2 : cp ≤ 9000) :
    (1 ≤ m → eval_numeric { mate := some m, cp := none } = some (10000 - m)) ∧
    (m ≤ 0 → eval_numeric { mate := some m, cp := none } = some (-(10000 - m))) ∧
    (eval_numeric { mate := none, cp := some cp } = some cp) ∧
    (1 ≤ m → m ≤ 900 → ∀ v w, eval_numeric { mate := some m, cp := none } = some v →
      eval_numeric { mate := none, cp := some cp } = some w → -v < w ∧ w < v) ∧
    (-900 ≤ m → m ≤ -1 → ∀ v w, eval_numeric { mate := some m, cp := none } = some v →
      eval_numeric { mate := none, cp := some cp } = some w → v < w ∧ w < -v) ∧
    (1 ≤ m → m < m2 → ∀ v v2, eval_numeric { mate := some m, cp := none } = some v →
      eval_numeric { mate := some m2, cp := none } = some v2 →
        0 < 10000 - v ∧ 10000 - v < 10000 - v2) ∧
    (m2 < m → m ≤ -1 → ∀ v v2, eval_numeric { mate := some m, cp := none } = some v →
      eval_numeric { mate := some m2, cp := none } = some v2 →
        0 < -10000 - v ∧ -10000 - v < -10000 - v2) := by
  refine ⟨?_, ?_, rfl, ?_, ?_, ?_, ?_⟩
  · intro h
    simp only [eval_numeric]
    rw [if_pos h]
  · intro h
    simp only [eval_numeric]
    rw [if_neg (by omega)]
  · intro h1 h2 v w hv hw
    simp only [eval_numeric] at hv hw
    rw [if_pos h1] at hv
    simp only [Option.some.injEq] at hv hw
    omega
  · intro h1 h2 v w hv hw
    simp only [eval_numeric] at hv hw
    rw [if_neg (by omega)] at hv
    simp only [Option.some.injEq] at hv hw
    omega
  · intro h1 h2 v v2 hv hv2
    simp only [eval_numeric] at hv hv2
    rw [if_pos h1] at hv
    rw [if_pos (by omega)] at hv2
    simp only [Option.some.injEq] at hv hv2
    omega
  · intro h1 h2 v v2 hv hv2
    simp only [eval_numeric] at hv hv2
    rw [if_neg (by omega)] at hv
    rw [if_neg (by omega)] at hv2
    simp only [Option.some.injEq] at hv hv2
    omega

/-- C1 witness: the amended theorem applied at m = 2, m2 = 5, cp = 100. -/
theorem eval_numeric_spec_witness :
    eval_numeric { mate := some 2, cp := none } = some (10000 - 2) :=
  (eval_numeric_spec 2 5 100 (by decide) (by decide)).1 (by decide)

/-- C8: when the engine response carries neither a mate count nor a
centipawn value, `eval_numeric` produces no numeric value (the
embedding's `none`, standing for the `UnboundLocalError` that aborts
the run). -/
theorem eval_numeric_no_score :
    eval_numeric { mate := none, cp := none } = none := rfl

/-- C6: at a mate score the source's `eval_human` returns the Python
tuple ("Mate in ", m) — the comma on line 69 builds a pair instead of
the documented string, and the raw (possibly negative) mate count is
kept, not its absolute value — so it differs from the claimed string
"Mate in {|m|}". -/
theorem eval_human_mate_returns_tuple :
    eval_human { mate := some (-4), cp := none } = PyValue.tupleVal "Mate in " (-4) ∧
    eval_human { mate := some (-4), cp := none } ≠
      PyValue.strVal ("Mate in " ++ toString (Int.natAbs (-4))) := by
  exact ⟨rfl, by decide⟩

/-- C4: with neither override applicable, the classifier's boundaries
are half-open exactly as specified: delta = -301 is a Blunder, -300 a
Mistake, -150 a Dubious move, -75 no glyph. -/
theorem get_nags_boundaries (j : Judgment)
    (hp : ¬ j.playedeval > 800) (hb : ¬ j.besteval < -800) :
    (j.playedeval - j.besteval = -301 → get_nags j = [NAG_BLUNDER]) ∧
    (j.playedeval - j.besteval = -300 → get_nags j = [NAG_MISTAKE]) ∧
    (j.playedeval - j.besteval = -150 → get_nags j = [NAG_DUBIOUS_MOVE]) ∧
    (j.playedeval - j.besteval = -75 → get_nags j = []) := by
  refine ⟨?_, ?_, ?_, ?_⟩ <;> intro h <;> unfold get_nags <;> dsimp only <;>
    split_ifs <;> first | rfl | (exfalso; omega)

/-- C4 witness: the boundary theorem applied at a concrete judgment
with delta = -301 and no override. -/
theorem get_nags_boundaries_witness :
    get_nags boundaryJudgment = [NAG_BLUNDER] :=
  (get_nags_boundaries boundaryJudgment (by decide) (by decide)).1 (by decide)

/-- C5: after the threshold lookup, either override (playedeval > 800,
or besteval < -800) forces the empty glyph set. -/
theorem get_nags_override (j : Judgment)
    (h : j.playedeval > 800 ∨ j.besteval < -800) :
    get_nags j = [] := by
  unfold get_nags
  dsimp only
  rcases h with h | h <;> split_ifs <;> first | rfl | (exfalso; omega)

/-- C5 witness: a judgment with delta = -500 but playedeval = 900
classifies as None. -/
theorem get_nags_override_witness :
    get_nags overrideJudgment = [] :=
  get_nags_override overrideJudgment (Or.inl (by decide))

/-- The board is restored by popping the pushed move. -/
theorem Board.pop_push (b : Board) (m : Move) : (b.push m).pop = b := by
  cases b
  simp [Board.push, Board.pop]

/-- C7: whenever `judge_move` returns, the caller's board is unchanged:
in the second-search branch the played move is pushed and popped again,
so the returned board equals the input board. -/
theorem judge_move_preserves_board (board : Board) (played_move : Move)
    (oracle : EngineOracle) (searchdepth : Nat) (res : JudgeResult)
    (h : judge_move board played_move oracle searchdepth = some res) :
    res.board = board := by
  unfold judge_move at h
  dsimp only at h
  split at h
  · exact absurd h (by simp)
  split at h
  · exact absurd h (by simp)
  split at h
  · split at h
    · exact absurd h (by simp)
    · injection h with h
      subst h
      rfl
  · split at h
    · exact absurd h (by simp)
    split at h
    · exact absurd h (by simp)
    injection h with h
    subst h
    exact Board.pop_push board played_move

/-- C7 witness: the frame theorem applied at a concrete board, move and
oracle. -/
theorem judge_move_preserves_board_witness :
    sampleResult.board = sampleBoard :=
  judge_move_preserves_board sampleBoard 0 sampleOracle 12 sampleResult (by rfl)

/-- C2: when the played move equals the engine's reported best move,
`judge_move` performs exactly one engine search and the judgment
satisfies playedeval = besteval. -/
theorem judge_move_bestmove_single_search (board : Board) (played_move : Move)
    (oracle : EngineOracle) (searchdepth : Nat) (res : JudgeResult)
    (hbest : played_move = (oracle board searchdepth).bestmove)
    (h : judge_move board played_move oracle searchdepth = some res) :
    res.searches = 1 ∧ res.judgment.playedeval = res.judgment.besteval := by
  unfold judge_move at h
  dsimp only at h
  split at h
  · exact absurd h (by simp)
  split at h
  · exact absurd h (by simp)
  split at h
  · split at h
    · exact absurd h (by simp)
    injection h with h
    subst h
    exact ⟨rfl, rfl⟩
  · rename_i hne
    exact absurd hbest hne

/-- C2 witness: the single-search theorem applied at a concrete board
and oracle whose best move is the played move. -/
theorem judge_move_bestmove_single_search_witness :
    sampleResult.searches = 1 ∧
    sampleResult.judgment.playedeval = sampleResult.judgment.besteval :=
  judge_move_bestmove_single_search sampleBoard 0 sampleOracle 12 sampleResult rfl (by rfl)

/-- C10: when the played move equals the best move and the engine
reported a centipawn score cp, the played comment is
`eval_absolute` of the sign-negated centipawn value (the source's
`cp / -100`) at the board's side to move, the best comment is
`eval_absolute` of cp itself, and nevertheless playedeval equals
besteval in the same judgment. -/
theorem judge_move_played_comment_negates (board : Board) (played_move : Move)
    (oracle : EngineOracle) (searchdepth : Nat) (c : Int) (res : JudgeResult)
    (hscore : (oracle board searchdepth).score = { mate := none, cp := some c })
    (hbest : played_move = (oracle board searchdepth).bestmove)
    (h : judge_move board played_move oracle searchdepth = some res) :
    res.judgment.playedcomment = eval_absolute (-c) board.turn ∧
    res.judgment.bestcomment = eval_absolute c board.turn ∧
    res.judgment.playedeval = res.judgment.besteval := by
  unfold judge_move at h
  dsimp only at h
  simp only [hscore, eval_numeric, best_move_comment, played_move_comment] at h
  split at h
  · injection h with h
    subst h
    exact ⟨rfl, rfl, rfl⟩
  · rename_i hne
    exact absurd hbest hne

/-- C10 witness: the negated-comment theorem applied at a concrete
oracle reporting cp = 7 for every position. -/
theorem judge_move_played_comment_negates_witness :
    sampleResult7.judgment.playedcomment = eval_absolute (-7) sampleBoard.turn ∧
    sampleResult7.judgment.bestcomment = eval_absolute 7 sampleBoard.turn ∧
    sampleResult7.judgment.playedeval = sampleResult7.judgment.besteval :=
  judge_move_played_comment_negates sampleBoard 0 sampleOracle7 12 7 sampleResult7
    rfl rfl (by rfl)

/-- The PV loop never inserts more moves than it reads. -/
theorem build_pv_chain_length_le (tip : Move) (l : List Move) :
    (build_pv_chain tip l).length ≤ l.length := by
  induction l generalizing tip with
  | nil => simp [build_pv_chain]
  | cons m rest ih =>
    by_cases h : tip = m
    · simp only [build_pv_chain, if_pos h]
      exact le_trans (ih tip) (Nat.le_succ _)
    · simp only [build_pv_chain, if_neg h, List.length_cons]
      exact Nat.succ_le_succ (ih m)

/-- The inserted moves are a subsequence of the PV moves read. -/
theorem build_pv_chain_sublist (tip : Move) (l : List Move) :
    (build_pv_chain tip l).Sublist l := by
  induction l generalizing tip with
  | nil => simp [build_pv_chain]
  | cons m rest ih =>
    by_cases h : tip = m
    · simp only [build_pv_chain, if_pos h]
      exact (ih tip).cons m
    · simp only [build_pv_chain, if_neg h]
      exact (ih m).cons₂ m

/-- No inserted move duplicates the move just inserted before it (the
branch tip starts at the best move). -/
theorem build_pv_chain_no_adjacent_dup (tip : Move) (l : List Move) :
    List.Chain' (fun a b => a ≠ b) (tip :: build_pv_chain tip l) := by
  induction l generalizing tip with
  | nil => simp [build_pv_chain]
  | cons m rest ih =>
    by_cases h : tip = m
    · simp only [build_pv_chain, if_pos h]
      exact ih tip
    · simp only [build_pv_chain, if_neg h]
      rw [List.chain'_cons]
      exact ⟨h, ih m⟩

/-- The root of the inserted branch carries the best move. -/
theorem mk_variation_chain_move (m : Move) (l : List Move) (c : String) :
    (mk_variation_chain m l c).move = m := by
  cases l <;> rfl

/-- Setting a node's comment leaves its move unchanged. -/
theorem setComment_move (t : ChildTree) (s : String) :
    (t.setComment s).move = t.move := by
  cases t
  rfl

/-- Setting a node's NAGs leaves its move unchanged. -/
theorem setNags_move (t : ChildTree) (n : List Nat) :
    (t.setNags n).move = t.move := by
  cases t
  rfl

/-- C3: `add_annotation` at a parent whose main child is the played
node leaves the parent's children as the played node (fields updated,
move unchanged) followed by the inserted best-move branch followed by
the remaining siblings — the played move is again the main child — and
the branch extends the best move by at most searchdepth / 2 moves, all
drawn in order from the principal variation, never repeating the move
just inserted. -/
theorem add_annotation_spec (node : ChildTree) (rest : List ChildTree)
    (j : Judgment) (searchdepth : Nat) :
    ∃ upd : ChildTree,
      add_annotation node rest j searchdepth =
        upd :: mk_variation_chain j.bestmove
          (build_pv_chain j.bestmove (j.pv.take (searchdepth / 2))) j.bestcomment :: rest ∧
      upd.move = node.move ∧
      (build_pv_chain j.bestmove (j.pv.take (searchdepth / 2))).length ≤ searchdepth / 2 ∧
      (build_pv_chain j.bestmove (j.pv.take (searchdepth / 2))).Sublist
        (j.pv.take (searchdepth / 2)) ∧
      List.Chain' (fun a b => a ≠ b)
        (j.bestmove :: build_pv_chain j.bestmove (j.pv.take (searchdepth / 2))) := by
  refine ⟨(if j.bestmove ≠ node.move then node.setComment j.playedcomment
            else node).setNags (get_nags j), ?_, ?_, ?_, ?_, ?_⟩
  · unfold add_annotation
    dsimp only
    simp only [demote]
    rw [if_pos (mk_variation_chain_move _ _ _)]
  · rw [setNags_move]
    split_ifs with h
    · rw [setComment_move]
    · rfl
  · exact le_trans (build_pv_chain_length_le _ _)
      (by rw [List.length_take]; exact min_le_left _ _)
  · exact build_pv_chain_sublist _ _
  · exact build_pv_chain_no_adjacent_dup _ _

/-- C9: when the final position is not game over, the driver's first
action (the final node) is `annotate` unconditionally — no
`needs_annotation` test guards it — while at every interior node the
loop annotates exactly when `needs_annotation` holds of that node's
judgment (playedeval - besteval < -50). -/
theorem main_walk_final_unconditional
    (plies : List (Board × Move)) (oracle : EngineOracle) (depth : Nat)
    (b : Board) (m : Move) (rest : List (Board × Move)) (acts : List NodeAction)
    (b2 : Board) (m2 : Move) (rest2 : List (Board × Move)) (a : NodeAction)
    (as : List NodeAction) (r : JudgeResult)
    (hrev : plies.reverse = (b, m) :: rest)
    (hw : main_walk false plies oracle depth = some acts)
    (hwalk : walk_interior oracle depth ((b2, m2) :: rest2) = some (a :: as))
    (hj : judge_move b2 m2 oracle depth = some r) :
    acts.head? = some NodeAction.annotate ∧
    (a = NodeAction.annotate ↔ needs_annotation r.judgment = true) := by
  constructor
  · unfold main_walk at hw
    rw [hrev] at hw
    simp only [Bool.false_eq_true, if_false] at hw
    split at hw
    · exact absurd hw (by simp)
    split at hw
    · exact absurd hw (by simp)
    injection hw with hw
    subst hw
    rfl
  · unfold walk_interior at hwalk
    simp only [hj] at hwalk
    split at hwalk
    · exact absurd hwalk (by simp)
    injection hwalk with hwalk
    injection hwalk with h1 h2
    by_cases hn : needs_annotation r.judgment = true
    · rw [if_pos hn] at h1
      subst h1
      simp [hn]
    · rw [if_neg hn] at h1
      subst h1
      simp [hn]

/-- C9 witness: the driver theorem applied at a one-move game with an
oracle whose best move is the played move, so that the interior loop
would skip but the final node is annotated anyway. -/
theorem main_walk_final_unconditional_witness :
    ([NodeAction.annotate] : List NodeAction).head? = some NodeAction.annotate ∧
    (NodeAction.noAnnotate = NodeAction.annotate ↔
      needs_annotation sampleResult.judgment = true) :=
  main_walk_final_unconditional [(sampleBoard, 0)] sampleOracle 12 sampleBoard 0 []
    [NodeAction.annotate] sampleBoard 0 [] NodeAction.noAnnotate [] sampleResult
    (by rfl) (by rfl) (by rfl) (by rfl)

end Annotator
